import Mathlib

/-
Verification development for the Restaurant Management System (src/main.cpp).

The program keeps two global `std::map<int, ...>` containers, `tables` and
`orders`, and mutates them through three interactive operations
(`placeOrder`, `completeOrder`, `payForOrder`) driven by a menu loop in
`main`.  We embed the state as a pair of association lists (faithful to the
unique-key semantics of `std::map`) and each operation as a pure function
from the state and the operation's interactive inputs to the new state plus
an outcome describing which code path was taken.  The `checkNum` retry loop
of the source never returns an out-of-range value, so an out-of-range input
is embedded as a rejecting outcome that leaves the state untouched.
Monetary amounts (`double` in the source) are embedded as exact rationals;
at every concrete input considered below the source's IEEE-754 computation
is exact, so the values coincide.
-/

namespace RMS

/-- The five entrees of the fixed menu (`enum Entrees`, main.cpp line 41). -/
inductive Entrees where
  | RAW_FISH
  | EGGS
  | HAM
  | BISC
  | TOAST
deriving DecidableEq

/-- Prices of the entrees (`entreePrices`, main.cpp line 44). -/
def entreePrices : Entrees → Int
  | .RAW_FISH => 35
  | .EGGS => 45
  | .HAM => 38
  | .BISC => 38
  | .TOAST => 38

/-- Number of tables (`TABLE_QTY`, main.cpp line 36). -/
def TABLE_QTY : Int := 4

/-- Per-table seat capacity (`TABLE_CAPACITY`, main.cpp line 37). -/
def TABLE_CAPACITY : Int := 4

/-- Tax rate (`TAX_RATE = 0.10`, main.cpp line 38), as an exact rational. -/
def TAX_RATE : ℚ := 0.10

/-- Tip rate (`TIP_RATE = 0.20`, main.cpp line 39), as an exact rational. -/
def TIP_RATE : ℚ := 0.20

/-- A table (`struct Table`, main.cpp lines 46-49). -/
structure Table where
  capacity : Int := TABLE_CAPACITY
  seatedGuests : Int := 0
deriving DecidableEq

/-- An order (`struct Order`, main.cpp lines 51-55). -/
structure Order where
  items : List Entrees := []
  isCompleted : Bool := false
  isPaid : Bool := false
deriving DecidableEq

/-- The value `Table()` default-constructs to. -/
def newTable : Table := {}

/-- The value `Order()` default-constructs to. -/
def newOrder : Order := {}

/-- Lookup in an association list, mirroring `std::map::find` /
`std::map::count` on a map with unique keys. -/
def mapFind (k : Int) : List (Int × α) → Option α
  | [] => none
  | (k2, v) :: rest => if k = k2 then some v else mapFind k rest

/-- Insert-or-overwrite in an association list, mirroring assignment through
`std::map::operator[]`. -/
def mapInsert (k : Int) (v : α) : List (Int × α) → List (Int × α)
  | [] => [(k, v)]
  | (k2, v2) :: rest =>
      if k = k2 then (k, v) :: rest else (k2, v2) :: mapInsert k v rest

/-- Read through `std::map::operator[]`: the stored value if the key is
present, the default-constructed value otherwise. -/
def mapGetD (l : List (Int × α)) (k : Int) (d : α) : α :=
  (mapFind k l).getD d

/-- The global program state: the `tables` map and the `orders` map
(main.cpp lines 57-58). -/
structure RState where
  tables : List (Int × Table)
  orders : List (Int × Order)
deriving DecidableEq

/-- The loop of `allOrdersPaidAndComplete` (main.cpp lines 60-66): false as
soon as some order lacks `isCompleted` or `isPaid`, true otherwise (also on
an empty map). -/
def allOrdersPaidAndComplete (os : List (Int × Order)) : Bool :=
  os.all fun p => p.2.isCompleted && p.2.isPaid

/-- State after `initializeTables()` (main.cpp lines 68-71): tables 1..4
default-constructed, no orders. -/
def initState : RState :=
  { tables := [(1, newTable), (2, newTable), (3, newTable), (4, newTable)],
    orders := [] }

/-- Outcomes of `placeOrder` (main.cpp lines 94-126).  `unknownTable` is the
`checkNum(1, TABLE_QTY, ...)` loop rejecting the table number,
`tableFull` the early return at lines 99-102, and `capacityExceeded` the
`checkNum(1, availableSeats, ...)` loop rejecting the guest count. -/
inductive PlaceOutcome where
  | unknownTable
  | tableFull
  | capacityExceeded
  | ok
deriving DecidableEq

/-- `placeOrder` (main.cpp lines 94-126).  Inputs: the table number and
guest count typed by the user, and the list of entrees chosen by the
guests (the per-guest `checkNum(1, entreeNames.size(), ...)` loop yields
one valid entree per guest, already cast to the enum at line 121).  On
success it seats the guests at the table and appends the items to the
table's order, default-constructing the order if absent (line 124). -/
def placeOrder (s : RState) (tableId guests : Int) (items : List Entrees) :
    RState × PlaceOutcome :=
  if tableId < 1 ∨ TABLE_QTY < tableId then (s, .unknownTable)
  else
    let table := mapGetD s.tables tableId newTable
    let availableSeats := TABLE_CAPACITY - table.seatedGuests
    if availableSeats ≤ 0 then (s, .tableFull)
    else if guests < 1 ∨ availableSeats < guests then (s, .capacityExceeded)
    else
      let table2 := { table with seatedGuests := table.seatedGuests + guests }
      let ord := mapGetD s.orders tableId newOrder
      let ord2 := { ord with items := ord.items ++ items }
      ({ tables := mapInsert tableId table2 s.tables,
         orders := mapInsert tableId ord2 s.orders }, .ok)

/-- Outcomes of `completeOrder` (main.cpp lines 150-163).  `blocked` is
`checkOrderAndTableStatus` returning -1 because every order is already
completed and paid (lines 144-147), `invalidTable` is the
`checkNum(1, TABLE_QTY, ...)` loop rejecting the table number, and
`noOrder` the `orders.count(tableId)` check failing. -/
inductive CompleteOutcome where
  | blocked
  | invalidTable
  | noOrder
  | ok
deriving DecidableEq

/-- `completeOrder` (main.cpp lines 150-163): sets `isCompleted` of the
table's order once the guards pass. -/
def completeOrder (s : RState) (tableId : Int) : RState × CompleteOutcome :=
  if allOrdersPaidAndComplete s.orders then (s, .blocked)
  else if tableId < 1 ∨ TABLE_QTY < tableId then (s, .invalidTable)
  else
    match mapFind tableId s.orders with
    | none => (s, .noOrder)
    | some ord =>
        ({ s with
            orders := mapInsert tableId { ord with isCompleted := true } s.orders },
         .ok)

/-- The payment record assembled by a successful `payForOrder`
(main.cpp lines 183-217): the billed amounts shown to the user and written
to the receipt file. -/
structure PaymentRecord where
  tableId : Int
  items : List Entrees
  subtotal : Int
  tax : ℚ
  tip : ℚ
  total : ℚ
deriving DecidableEq

/-- Outcomes of `payForOrder` (main.cpp lines 165-224).  `blocked`,
`invalidTable` and `noOrder` are as in `completeOrder`; `notCompleted` is
the early return at lines 177-181; `cancelled` the confirmation prompt
answered with anything but y/Y (lines 221-223); `paid` carries the billed
amounts of the successful payment. -/
inductive PayOutcome where
  | blocked
  | invalidTable
  | noOrder
  | notCompleted
  | cancelled
  | paid (record : PaymentRecord)
deriving DecidableEq

/-- True iff an outcome is a successful payment (the only path that writes
a receipt file, main.cpp lines 205-218). -/
def producesReceipt : PayOutcome → Bool
  | .paid _ => true
  | _ => false

/-- The subtotal loop of `payForOrder` (main.cpp lines 183-185). -/
def subtotalOf (items : List Entrees) : Int :=
  items.foldl (fun acc item => acc + entreePrices item) 0

/-- The check `tolower(confirm) == 'y'` (main.cpp line 201) at the
character-code level: codes 65-90 are A-Z, lowercasing adds 32, and 121 is
the code of y. -/
def confirmsPayment (c : Char) : Bool :=
  (if 65 ≤ c.toNat ∧ c.toNat ≤ 90 then c.toNat + 32 else c.toNat) == 121

/-- `payForOrder` (main.cpp lines 165-224).  Inputs: the table number typed
at the `checkOrderAndTableStatus` prompt and the confirmation character.
On confirmation it marks the order paid and resets the table's
`seatedGuests` to 0 (lines 202-203). -/
def payForOrder (s : RState) (tableId : Int) (confirm : Char) :
    RState × PayOutcome :=
  if allOrdersPaidAndComplete s.orders then (s, .blocked)
  else if tableId < 1 ∨ TABLE_QTY < tableId then (s, .invalidTable)
  else
    match mapFind tableId s.orders with
    | none => (s, .noOrder)
    | some ord =>
        if ord.isCompleted = false then (s, .notCompleted)
        else
          let subtotal := subtotalOf ord.items
          let tax : ℚ := subtotal * TAX_RATE
          let tip : ℚ := subtotal * TIP_RATE
          let total : ℚ := subtotal + tax + tip
          if confirmsPayment confirm then
            ({ tables :=
                 mapInsert tableId
                   { mapGetD s.tables tableId newTable with seatedGuests := 0 }
                   s.tables,
               orders := mapInsert tableId { ord with isPaid := true } s.orders },
             .paid { tableId := tableId, items := ord.items, subtotal := subtotal,
                     tax := tax, tip := tip, total := total })
          else (s, .cancelled)

/-- Status of a table's order as printed by `checkTableStatus`
(main.cpp lines 128-138). -/
inductive TableStatus where
  | awaitingCompletion
  | awaitingPayment
  | allDone
deriving DecidableEq

/-- The status chain of `checkTableStatus` (main.cpp lines 133-135). -/
def statusOf (ord : Order) : TableStatus :=
  if ord.isCompleted = false then .awaitingCompletion
  else if ord.isPaid = false then .awaitingPayment
  else .allDone

/-- The close-the-restaurant guard of `main` (main.cpp line 266):
`!(orders.empty()) && allOrdersPaidAndComplete()`. -/
def canClose (s : RState) : Bool :=
  !s.orders.isEmpty && allOrdersPaidAndComplete s.orders

/-- States reachable from startup by any sequence of the three
state-mutating operations, with arbitrary interactive inputs. -/
inductive Reachable : RState → Prop where
  | init : Reachable initState
  | place (tableId guests : Int) (items : List Entrees) {s : RState} :
      Reachable s → Reachable (placeOrder s tableId guests items).1
  | complete (tableId : Int) {s : RState} :
      Reachable s → Reachable (completeOrder s tableId).1
  | pay (tableId : Int) (confirm : Char) {s : RState} :
      Reachable s → Reachable (payForOrder s tableId confirm).1

/-! Basic lemmas about the association-list map operations. -/

theorem mapFind_mem {k : Int} {v : α} {l : List (Int × α)}
    (h : mapFind k l = some v) : (k, v) ∈ l := by
  induction l with
  | nil => simp [mapFind] at h
  | cons p rest ih =>
      obtain ⟨k2, v2⟩ := p
      by_cases hk : k = k2
      · subst hk
        simp [mapFind] at h
        simp [h]
      · simp [mapFind, hk] at h
        exact List.mem_cons_of_mem _ (ih h)

theorem mem_mapInsert {k : Int} {v : α} {l : List (Int × α)} {p : Int × α}
    (h : p ∈ mapInsert k v l) : p = (k, v) ∨ p ∈ l := by
  induction l with
  | nil => simpa [mapInsert] using h
  | cons q rest ih =>
      obtain ⟨k2, v2⟩ := q
      by_cases hk : k = k2
      · subst hk
        simp [mapInsert] at h
        rcases h with h | h
        · exact Or.inl (by simp [h])
        · exact Or.inr (List.mem_cons_of_mem _ h)
      · simp [mapInsert, hk] at h
        rcases h with h | h
        · exact Or.inr (by simp [h])
        · rcases ih h with h2 | h2
          · exact Or.inl h2
          · exact Or.inr (List.mem_cons_of_mem _ h2)

theorem mapFind_mapInsert_self (k : Int) (v : α) (l : List (Int × α)) :
    mapFind k (mapInsert k v l) = some v := by
  induction l with
  | nil => simp [mapInsert, mapFind]
  | cons q rest ih =>
      obtain ⟨k2, v2⟩ := q
      by_cases hk : k = k2
      · subst hk
        simp [mapInsert, mapFind]
      · simp [mapInsert, mapFind, hk, ih]

theorem mapGetD_mapInsert_self (k : Int) (v : α) (l : List (Int × α)) (d : α) :
    mapGetD (mapInsert k v l) k d = v := by
  simp [mapGetD, mapFind_mapInsert_self]

theorem allOrdersPaidAndComplete_iff (os : List (Int × Order)) :
    allOrdersPaidAndComplete os = true ↔
      ∀ p ∈ os, p.2.isCompleted = true ∧ p.2.isPaid = true := by
  simp [allOrdersPaidAndComplete, List.all_eq_true, Bool.and_eq_true]

/-! The state invariant maintained by every operation: seated-guest counts
stay within capacity (with the capacity field never mutated away from
`TABLE_CAPACITY`), and no order is ever paid without being completed. -/

/-- A table whose occupancy is within bounds. -/
def TableOK (tb : Table) : Prop :=
  tb.capacity = TABLE_CAPACITY ∧ 0 ≤ tb.seatedGuests ∧
    tb.seatedGuests ≤ TABLE_CAPACITY

/-- An order that is completed whenever it is paid. -/
def OrderOK (o : Order) : Prop := o.isPaid = true → o.isCompleted = true

/-- The global invariant over both maps. -/
def StateInv (s : RState) : Prop :=
  (∀ p ∈ s.tables, TableOK p.2) ∧ (∀ p ∈ s.orders, OrderOK p.2)

theorem tableOK_read (s : RState) (t : Int)
    (ht : ∀ p ∈ s.tables, TableOK p.2) :
    TableOK (mapGetD s.tables t newTable) := by
  unfold mapGetD
  cases hf : mapFind t s.tables with
  | none =>
      simp only [Option.getD_none]
      refine ⟨rfl, by norm_num [newTable], by norm_num [newTable, TABLE_CAPACITY]⟩
  | some tb =>
      simp only [Option.getD_some]
      exact ht _ (mapFind_mem hf)

theorem orderOK_read (s : RState) (t : Int)
    (ho : ∀ p ∈ s.orders, OrderOK p.2) :
    OrderOK (mapGetD s.orders t newOrder) := by
  unfold mapGetD
  cases hf : mapFind t s.orders with
  | none =>
      simp only [Option.getD_none]
      intro h
      simp [newOrder] at h
  | some o =>
      simp only [Option.getD_some]
      exact ho _ (mapFind_mem hf)

theorem stateInv_placeOrder (s : RState) (t g : Int) (items : List Entrees)
    (h : StateInv s) : StateInv (placeOrder s t g items).1 := by
  obtain ⟨ht, ho⟩ := h
  unfold placeOrder
  split
  · exact ⟨ht, ho⟩
  · dsimp only
    split
    · exact ⟨ht, ho⟩
    · split
      · exact ⟨ht, ho⟩
      · rename_i hfull hcap
        constructor
        · intro p hp
          rcases mem_mapInsert hp with hp | hp
          · subst hp
            obtain ⟨hc, h0, h4⟩ := tableOK_read s t ht
            refine ⟨hc, ?_, ?_⟩ <;>
              · revert hfull hcap h0 h4
                unfold TABLE_CAPACITY
                dsimp only
                omega
          · exact ht _ hp
        · intro p hp
          rcases mem_mapInsert hp with hp | hp
          · subst hp
            exact orderOK_read s t ho
          · exact ho _ hp

theorem stateInv_completeOrder (s : RState) (t : Int)
    (h : StateInv s) : StateInv (completeOrder s t).1 := by
  obtain ⟨ht, ho⟩ := h
  unfold completeOrder
  split
  · exact ⟨ht, ho⟩
  · split
    · exact ⟨ht, ho⟩
    · split
      · exact ⟨ht, ho⟩
      · refine ⟨ht, ?_⟩
        intro p hp
        rcases mem_mapInsert hp with hp | hp
        · subst hp
          intro _
          rfl
        · exact ho _ hp

theorem stateInv_payForOrder (s : RState) (t : Int) (c : Char)
    (h : StateInv s) : StateInv (payForOrder s t c).1 := by
  obtain ⟨ht, ho⟩ := h
  unfold payForOrder
  split
  · exact ⟨ht, ho⟩
  · split
    · exact ⟨ht, ho⟩
    · split
      · exact ⟨ht, ho⟩
      · split
        · exact ⟨ht, ho⟩
        · rename_i ord _ hcompleted
          split
          · constructor
            · intro p hp
              rcases mem_mapInsert hp with hp | hp
              · subst hp
                obtain ⟨hc, _, _⟩ := tableOK_read s t ht
                exact ⟨hc, le_refl 0, by norm_num [TABLE_CAPACITY]⟩
              · exact ht _ hp
            · intro p hp
              rcases mem_mapInsert hp with hp | hp
              · subst hp
                intro _
                simpa using hcompleted
              · exact ho _ hp
          · exact ⟨ht, ho⟩

theorem stateInv_init : StateInv initState := by
  constructor
  · intro p hp
    simp [initState] at hp
    rcases hp with h | h | h | h <;>
      · subst h
        exact ⟨rfl, by norm_num [newTable], by norm_num [newTable, TABLE_CAPACITY]⟩
  · intro p hp
    simp [initState] at hp

theorem reachable_stateInv {s : RState} (h : Reachable s) : StateInv s := by
  induction h with
  | init => exact stateInv_init
  | place t g items _ ih => exact stateInv_placeOrder _ t g items ih
  | complete t _ ih => exact stateInv_completeOrder _ t ih
  | pay t c _ ih => exact stateInv_payForOrder _ t c ih

/-! Concrete runs used to instantiate the theorems below.  `sB1`-`sB3` is
the spec's Scenario A/D run: two guests at table 1 order Raw Fish and Eggs,
the order is completed, then paid.  `sB4` additionally opens an order at
table 2, `sB5` instead seats a third guest at the settled table 1, and
`sB6` opens table 2 on top of that. -/

def sB1 : RState := (placeOrder initState 1 2 [.RAW_FISH, .EGGS]).1

def sB2 : RState := (completeOrder sB1 1).1

def sB3 : RState := (payForOrder sB2 1 'y').1

def sB4 : RState := (placeOrder sB3 2 1 [.HAM]).1

def sB5 : RState := (placeOrder sB3 1 1 [.HAM]).1

def sB6 : RState := (placeOrder sB5 2 1 [.TOAST]).1

theorem reachable_sB3 : Reachable sB3 :=
  Reachable.pay 1 'y'
    (Reachable.complete 1 (Reachable.place 1 2 [.RAW_FISH, .EGGS] Reachable.init))

theorem reachable_sB4 : Reachable sB4 :=
  Reachable.place 2 1 [.HAM] reachable_sB3

/-- Claim C1: the restaurant can be closed exactly when at least one order
exists and every existing order is both completed and paid; `canClose` is
false on a restaurant with no orders and false whenever any order lacks
`isCompleted && isPaid`. -/
theorem canClose_iff_some_order_and_all_settled (s : RState) :
    canClose s = true ↔
      s.orders ≠ [] ∧
        ∀ p ∈ s.orders, p.2.isCompleted = true ∧ p.2.isPaid = true := by
  rw [canClose, Bool.and_eq_true, Bool.not_eq_true', allOrdersPaidAndComplete_iff]
  cases s.orders <;> simp

/-- Claim C2: a payment attempt on a table whose order is not completed
fails at the not-completed guard, leaves the whole state unchanged, and the
order remains unpaid. -/
theorem payForOrder_incomplete_fails (s : RState) (t : Int) (c : Char)
    (ord : Order) (hs : Reachable s) (h1 : 1 ≤ t) (h2 : t ≤ TABLE_QTY)
    (hord : mapFind t s.orders = some ord) (hnc : ord.isCompleted = false) :
    payForOrder s t c = (s, PayOutcome.notCompleted) ∧ ord.isPaid = false := by
  have hpaid : ord.isPaid = false := by
    obtain ⟨-, ho⟩ := reachable_stateInv hs
    have hOK := ho _ (mapFind_mem hord)
    cases hp : ord.isPaid
    · rfl
    · have := hOK hp
      rw [this] at hnc
      exact absurd hnc (by simp)
  have hall : allOrdersPaidAndComplete s.orders = false := by
    by_contra hcon
    have h3 := (allOrdersPaidAndComplete_iff s.orders).mp
      (by simpa using hcon) _ (mapFind_mem hord)
    rw [hnc] at h3
    exact absurd h3.1 (by simp)
  have hrange : ¬(t < 1 ∨ TABLE_QTY < t) := by omega
  refine ⟨?_, hpaid⟩
  simp [payForOrder, hall, hrange, hord, hnc]

theorem payForOrder_incomplete_fails_witness :
    payForOrder sB1 1 'y' = (sB1, PayOutcome.notCompleted) ∧
      (Order.mk [.RAW_FISH, .EGGS] false false).isPaid = false :=
  payForOrder_incomplete_fails sB1 1 'y'
    (Order.mk [.RAW_FISH, .EGGS] false false)
    (Reachable.place 1 2 [.RAW_FISH, .EGGS] Reachable.init)
    (by decide) (by decide) (by decide) (by decide)

/-- Claim C3 counterexample: in the reachable state `sB4`, table 1's order
is already completed and paid, yet — because table 2 still has an unsettled
order — a second payment attempt on table 1 does not fail at all: it
succeeds and re-bills the full $104.  The source has no already-paid check
inside `payForOrder`; the only guard is the all-orders-settled early
return. -/
theorem payForOrder_repay_succeeds :
    mapFind 1 sB4.orders =
      some { items := [.RAW_FISH, .EGGS], isCompleted := true, isPaid := true } ∧
    (payForOrder sB4 1 'y').2 =
      PayOutcome.paid { tableId := 1, items := [.RAW_FISH, .EGGS], subtotal := 80,
                        tax := 8, tip := 16, total := 104 } := by
  constructor
  · decide
  · have h : (payForOrder sB4 1 'y').2 =
        PayOutcome.paid { tableId := 1, items := [.RAW_FISH, .EGGS], subtotal := 80,
                          tax := ((80 : ℤ) : ℚ) * TAX_RATE,
                          tip := ((80 : ℤ) : ℚ) * TIP_RATE,
                          total := ((80 : ℤ) : ℚ) + ((80 : ℤ) : ℚ) * TAX_RATE +
                            ((80 : ℤ) : ℚ) * TIP_RATE } := rfl
    rw [h]
    norm_num [TAX_RATE, TIP_RATE]

/-- Claim C3 amended: a second payment attempt on a table whose order is
completed and paid is rejected only by the all-settled early return of
`checkOrderAndTableStatus`: whenever every existing order is settled (in
particular in Scenario D, where the settled order is the only one), the
attempt returns with the state unchanged; the source has no dedicated
already-paid rejection. -/
theorem payForOrder_settled_blocked (s : RState) (t : Int) (c : Char)
    (ord : Order) (hord : mapFind t s.orders = some ord)
    (hcomp : ord.isCompleted = true) (hpaid : ord.isPaid = true)
    (hall : allOrdersPaidAndComplete s.orders = true) :
    payForOrder s t c = (s, PayOutcome.blocked) := by
  simp [payForOrder, hall]

theorem payForOrder_settled_blocked_witness :
    payForOrder sB3 1 'y' = (sB3, PayOutcome.blocked) :=
  payForOrder_settled_blocked sB3 1 'y'
    (Order.mk [.RAW_FISH, .EGGS] true true)
    (by decide) (by decide) (by decide) (by decide)

/-- Claim C4: in every reachable state, every table's seated-guest count is
between 0 and the table's capacity. -/
theorem seatedGuests_within_capacity (s : RState) (hs : Reachable s) :
    s.tables.all
      (fun p => decide (0 ≤ p.2.seatedGuests ∧ p.2.seatedGuests ≤ p.2.capacity)) =
      true := by
  obtain ⟨ht, -⟩ := reachable_stateInv hs
  rw [List.all_eq_true]
  intro p hp
  obtain ⟨hc, h0, h4⟩ := ht _ hp
  rw [decide_eq_true_eq]
  exact ⟨h0, by rw [hc]; exact h4⟩

theorem seatedGuests_within_capacity_witness :
    sB4.tables.all
      (fun p => decide (0 ≤ p.2.seatedGuests ∧ p.2.seatedGuests ≤ p.2.capacity)) =
      true :=
  seatedGuests_within_capacity sB4 reachable_sB4

/-- Claim C5: a guest count exceeding the table's available seats
(`TABLE_CAPACITY - seatedGuests`, main.cpp line 98) is always rejected by
`placeOrder` with the state unchanged — the operation never succeeds — and
whenever the table still has a free seat the rejection is the
capacity-exceeded one (at a full table the earlier table-full return fires
before a guest count is even read). -/
theorem placeOrder_rejects_excess_guests (s : RState) (t g : Int)
    (items : List Entrees) (h1 : 1 ≤ t) (h2 : t ≤ TABLE_QTY)
    (hover : TABLE_CAPACITY - (mapGetD s.tables t newTable).seatedGuests < g) :
    (placeOrder s t g items).1 = s ∧
    (placeOrder s t g items).2 ≠ PlaceOutcome.ok ∧
    (0 < TABLE_CAPACITY - (mapGetD s.tables t newTable).seatedGuests →
      placeOrder s t g items = (s, PlaceOutcome.capacityExceeded)) := by
  have hrange : ¬(t < 1 ∨ TABLE_QTY < t) := by omega
  unfold placeOrder
  rw [if_neg hrange]
  dsimp only
  split
  · rename_i hle
    exact ⟨rfl, by simp, fun h0 => absurd h0 (by omega)⟩
  · rw [if_pos (Or.inr hover)]
    exact ⟨rfl, by simp, fun _ => rfl⟩

theorem placeOrder_rejects_excess_guests_witness :
    (placeOrder sB1 1 3 []).1 = sB1 ∧
    (placeOrder sB1 1 3 []).2 ≠ PlaceOutcome.ok ∧
    (0 < TABLE_CAPACITY - (mapGetD sB1.tables 1 newTable).seatedGuests →
      placeOrder sB1 1 3 [] = (sB1, PlaceOutcome.capacityExceeded)) :=
  placeOrder_rejects_excess_guests sB1 1 3 [] (by decide) (by decide) (by decide)

/-- Claim C6: immediately after any successful payment for a table, that
table's seated-guest count is exactly 0 and the table's reported order
status is the final all-done one. -/
theorem payForOrder_success_resets_and_settles (s : RState) (t : Int)
    (c : Char) (rec : PaymentRecord)
    (h : (payForOrder s t c).2 = PayOutcome.paid rec) :
    (mapGetD (payForOrder s t c).1.tables t newTable).seatedGuests = 0 ∧
    (mapFind t (payForOrder s t c).1.orders).map statusOf =
      some TableStatus.allDone := by
  by_cases hall : allOrdersPaidAndComplete s.orders = true
  · simp [payForOrder, hall] at h
  · by_cases hrange : t < 1 ∨ TABLE_QTY < t
    · simp [payForOrder, hall, hrange] at h
    · cases hord : mapFind t s.orders with
      | none => simp [payForOrder, hall, hrange, hord] at h
      | some ord =>
          by_cases hcomp : ord.isCompleted = false
          · simp [payForOrder, hall, hrange, hord, hcomp] at h
          · by_cases hconf : confirmsPayment c = true
            · simp [payForOrder, hall, hrange, hord, hcomp, hconf,
                mapGetD_mapInsert_self, mapFind_mapInsert_self, statusOf]
            · simp [payForOrder, hall, hrange, hord, hcomp, hconf] at h

theorem payForOrder_success_resets_and_settles_witness :
    (mapGetD (payForOrder sB2 1 'y').1.tables 1 newTable).seatedGuests = 0 ∧
    (mapFind 1 (payForOrder sB2 1 'y').1.orders).map statusOf =
      some TableStatus.allDone :=
  payForOrder_success_resets_and_settles sB2 1 'y'
    { tableId := 1, items := [.RAW_FISH, .EGGS], subtotal := 80,
      tax := ((80 : ℤ) : ℚ) * TAX_RATE, tip := ((80 : ℤ) : ℚ) * TIP_RATE,
      total := ((80 : ℤ) : ℚ) + ((80 : ℤ) : ℚ) * TAX_RATE +
        ((80 : ℤ) : ℚ) * TIP_RATE }
    rfl

/-- Claim C7: in every reachable state, every order that is paid is also
completed — no operation can produce a paid-but-not-completed order. -/
theorem paid_implies_completed (s : RState) (hs : Reachable s) :
    s.orders.all (fun p => !p.2.isPaid || p.2.isCompleted) = true := by
  obtain ⟨-, ho⟩ := reachable_stateInv hs
  rw [List.all_eq_true]
  intro p hp
  have hOK := ho _ hp
  cases hpd : p.2.isPaid
  · simp
  · simp [hOK hpd]

theorem paid_implies_completed_witness :
    sB3.orders.all (fun p => !p.2.isPaid || p.2.isCompleted) = true :=
  paid_implies_completed sB3 reachable_sB3

/-- Claim C8: Scenario A — for the order of one $35 Raw Fish and one $45
Eggs item, the bill computed by `payForOrder` is subtotal $80, tax $8
(10 percent), tip $16 (20 percent), total $104.  At this input the
source's IEEE-754 double computation is exact, so the rational model
returns the very same amounts. -/
theorem scenarioA_bill :
    (payForOrder sB2 1 'y').2 =
      PayOutcome.paid { tableId := 1, items := [.RAW_FISH, .EGGS],
                        subtotal := 80, tax := 8, tip := 16, total := 104 } := by
  have h : (payForOrder sB2 1 'y').2 =
      PayOutcome.paid { tableId := 1, items := [.RAW_FISH, .EGGS], subtotal := 80,
                        tax := ((80 : ℤ) : ℚ) * TAX_RATE,
                        tip := ((80 : ℤ) : ℚ) * TIP_RATE,
                        total := ((80 : ℤ) : ℚ) + ((80 : ℤ) : ℚ) * TAX_RATE +
                          ((80 : ℤ) : ℚ) * TIP_RATE } := rfl
  rw [h]
  norm_num [TAX_RATE, TIP_RATE]

/-- Helper for Claim C9: the check `tolower(confirm) == 'y'` of
main.cpp line 201 is false for every character other than y or Y. -/
theorem confirmsPayment_eq_false {c : Char} (h1 : c ≠ 'y') (h2 : c ≠ 'Y') :
    confirmsPayment c = false := by
  have hy : Char.toNat 'y' = 121 := rfl
  have hY : Char.toNat 'Y' = 89 := rfl
  rw [confirmsPayment, beq_eq_false_iff_ne]
  split
  · intro hEq
    refine h2 (Char.ext (UInt32.ext ?_))
    show Char.toNat c = Char.toNat 'Y'
    rw [hY]
    omega
  · intro hEq
    refine h1 (Char.ext (UInt32.ext ?_))
    show Char.toNat c = Char.toNat 'y'
    rw [hy]
    omega

/-- Claim C9: if the payment confirmation input is anything other than y
or Y, the payment attempt changes no state at all (flags, items and
seated-guest counts included) and produces no receipt. -/
theorem payForOrder_cancel_no_change (s : RState) (t : Int) (c : Char)
    (h1 : c ≠ 'y') (h2 : c ≠ 'Y') :
    (payForOrder s t c).1 = s ∧
    producesReceipt (payForOrder s t c).2 = false := by
  have hconf : confirmsPayment c = false := confirmsPayment_eq_false h1 h2
  unfold payForOrder
  split
  · exact ⟨rfl, rfl⟩
  · split
    · exact ⟨rfl, rfl⟩
    · split
      · exact ⟨rfl, rfl⟩
      · split
        · exact ⟨rfl, rfl⟩
        · rw [if_neg (by simp [hconf])]
          exact ⟨rfl, rfl⟩

theorem payForOrder_cancel_no_change_witness :
    (payForOrder sB2 1 'n').1 = sB2 ∧
    producesReceipt (payForOrder sB2 1 'n').2 = false :=
  payForOrder_cancel_no_change sB2 1 'n' (by decide) (by decide)

/-- Helper: inserting a completed-and-paid order preserves the
all-settled property of the order book. -/
theorem allOrdersPaidAndComplete_mapInsert {os : List (Int × Order)}
    (hall : allOrdersPaidAndComplete os = true) {k : Int} {o : Order}
    (hc : o.isCompleted = true) (hp : o.isPaid = true) :
    allOrdersPaidAndComplete (mapInsert k o os) = true := by
  rw [allOrdersPaidAndComplete_iff]
  intro p hp2
  rcases mem_mapInsert hp2 with h | h
  · subst h
    exact ⟨hc, hp⟩
  · exact (allOrdersPaidAndComplete_iff os).mp hall _ h

/-- Claim C10 counterexample: starting from the settled single-order state
`sB3`, a new `placeOrder` seats one more guest at table 1 and appends Ham
to the already-settled order (`sB5`); the appended item is not beyond the
reach of billing — once table 2 opens an unsettled order (`sB6`), a payment
attempt on table 1 succeeds and bills all three items, the appended Ham
included, for $153.40. -/
theorem settled_order_append_billed :
    mapFind 1 sB5.orders =
      some { items := [.RAW_FISH, .EGGS, .HAM], isCompleted := true,
             isPaid := true } ∧
    (payForOrder sB6 1 'y').2 =
      PayOutcome.paid { tableId := 1, items := [.RAW_FISH, .EGGS, .HAM],
                        subtotal := 118, tax := 59/5, tip := 118/5,
                        total := 767/5 } := by
  constructor
  · decide
  · have h : (payForOrder sB6 1 'y').2 =
        PayOutcome.paid { tableId := 1, items := [.RAW_FISH, .EGGS, .HAM],
                          subtotal := 118,
                          tax := ((118 : ℤ) : ℚ) * TAX_RATE,
                          tip := ((118 : ℤ) : ℚ) * TIP_RATE,
                          total := ((118 : ℤ) : ℚ) + ((118 : ℤ) : ℚ) * TAX_RATE +
                            ((118 : ℤ) : ℚ) * TIP_RATE } := rfl
    rw [h]
    norm_num [TAX_RATE, TIP_RATE]

/-- Claim C10 amended: on a table whose order is completed and paid and
whose seats were reset to 0 by payment, a subsequent `placeOrder` succeeds,
seats the new guests and appends the new items onto the existing order
record with both flags still true; as long as every order in the book
remains settled the appended items cannot be billed (payment is blocked by
the all-settled early return), but they are billed by a repeated payment
once some other table holds an unsettled order. -/
theorem placeOrder_on_settled_table (s : RState) (t g : Int)
    (items : List Entrees) (c : Char) (ord : Order)
    (h1 : 1 ≤ t) (h2 : t ≤ TABLE_QTY)
    (hord : mapFind t s.orders = some ord)
    (hcomp : ord.isCompleted = true) (hpaid : ord.isPaid = true)
    (hseat : (mapGetD s.tables t newTable).seatedGuests = 0)
    (hg1 : 1 ≤ g) (hg2 : g ≤ TABLE_CAPACITY) :
    (placeOrder s t g items).2 = PlaceOutcome.ok ∧
    mapFind t (placeOrder s t g items).1.orders =
      some { items := ord.items ++ items, isCompleted := true, isPaid := true } ∧
    (mapGetD (placeOrder s t g items).1.tables t newTable).seatedGuests = g ∧
    (allOrdersPaidAndComplete s.orders = true →
      payForOrder (placeOrder s t g items).1 t c =
        ((placeOrder s t g items).1, PayOutcome.blocked)) := by
  have hrange : ¬(t < 1 ∨ TABLE_QTY < t) := by omega
  have hfull : ¬(TABLE_CAPACITY - (mapGetD s.tables t newTable).seatedGuests ≤ 0) := by
    rw [hseat]
    unfold TABLE_CAPACITY
    omega
  have hcap : ¬(g < 1 ∨ TABLE_CAPACITY - (mapGetD s.tables t newTable).seatedGuests < g) := by
    rw [hseat]
    omega
  have hstate : placeOrder s t g items =
      ({ tables := mapInsert t
           { mapGetD s.tables t newTable with
               seatedGuests := (mapGetD s.tables t newTable).seatedGuests + g }
           s.tables,
         orders := mapInsert t
           { mapGetD s.orders t newOrder with
               items := (mapGetD s.orders t newOrder).items ++ items }
           s.orders }, .ok) := by
    unfold placeOrder
    rw [if_neg hrange]
    dsimp only
    rw [if_neg hfull, if_neg hcap]
  have hgetOrd : mapGetD s.orders t newOrder = ord := by
    rw [mapGetD, hord, Option.getD_some]
  refine ⟨by rw [hstate], ?_, ?_, ?_⟩
  · rw [hstate]
    dsimp only
    rw [mapFind_mapInsert_self, hgetOrd, hcomp, hpaid]
  · rw [hstate]
    dsimp only
    rw [mapGetD_mapInsert_self]
    dsimp only
    rw [hseat, zero_add]
  · intro hall
    have hall2 : allOrdersPaidAndComplete (placeOrder s t g items).1.orders = true := by
      rw [hstate]
      dsimp only
      exact allOrdersPaidAndComplete_mapInsert hall
        (by rw [hgetOrd]; exact hcomp) (by rw [hgetOrd]; exact hpaid)
    simp [payForOrder, hall2]

theorem placeOrder_on_settled_table_witness :
    (placeOrder sB3 1 1 [.HAM]).2 = PlaceOutcome.ok ∧
    mapFind 1 (placeOrder sB3 1 1 [.HAM]).1.orders =
      some { items := [Entrees.RAW_FISH, Entrees.EGGS] ++ [Entrees.HAM],
             isCompleted := true, isPaid := true } ∧
    (mapGetD (placeOrder sB3 1 1 [.HAM]).1.tables 1 newTable).seatedGuests = 1 ∧
    (allOrdersPaidAndComplete sB3.orders = true →
      payForOrder (placeOrder sB3 1 1 [.HAM]).1 1 'y' =
        ((placeOrder sB3 1 1 [.HAM]).1, PayOutcome.blocked)) :=
  placeOrder_on_settled_table sB3 1 1 [.HAM] 'y'
    (Order.mk [.RAW_FISH, .EGGS] true true)
    (by decide) (by decide) (by decide) (by decide) (by decide) (by decide)
    (by decide) (by decide)

end RMS
